import Mathlib

/-!
Shallow embedding of rpmconf (src/rpmconf/rpmconf.py), the config-variant
reconciliation engine, and proofs about it.

Modelling conventions:
* The filesystem is an association list from absolute paths to byte lists
  (regular-file contents).  The symlink branch of `_copy` is not exercised by
  the properties below, so file contents are plain byte strings.
* `filecmp.cmp(a, b)` is modelled as byte equality of the two contents
  (for byte-identical files the shallow comparison of `filecmp` is always
  true: either the stat signatures agree, or the contents are compared).
* Interactive input is a list of lines; an exhausted list models end of
  input, where Python `input()` raises `EOFError`.
* External subprocess exit statuses (the merge tools) are an oracle list of
  `ProcExit` values consumed one per invocation.  The external tools own
  writes to the filesystem are environment effects outside the engine and
  are not part of the modelled state; the engine-side post-actions
  (`self._remove(...)` after a kdiff3 merge) are modelled.
* Uncaught Python exceptions and `sys.exit` calls are `Except.error`
  values: they terminate the whole run.
* Printed reporting output is modelled as a list of strings; prompts are
  marked by the (abbreviated) prompt template constants, so counting
  prompts is counting those markers.  `subprocess.check_output` of
  `ls -ltrd a b` fails (raises `CalledProcessError`, uncaught) when one of
  its operands does not exist.
-/

namespace Rpmconf

/-- Contents of a regular file: its bytes. -/
abbrev Bytes := List Nat

/-- A filesystem snapshot: association list from paths to contents. -/
abbrev FS := List (String × Bytes)

/-- Lookup of a path in the filesystem (`os.access(p, F_OK)` is `isSome`). -/
def FS.lookup : FS → String → Option Bytes
  | [], _ => none
  | (q, c) :: rest, p => if q = p then some c else FS.lookup rest p

/-- Deleting a path (`os.unlink` effect on the snapshot). -/
def FS.erase (fs : FS) (p : String) : FS :=
  fs.filter (fun e => e.1 != p)

/-- Writing contents to a path, replacing what was there (`shutil.copy2`). -/
def FS.write (fs : FS) (p : String) (c : Bytes) : FS :=
  (p, c) :: FS.erase fs p

/-- Uncaught exceptional terminations of the Python process. -/
inductive Err
  /-- `FileNotFoundError` / `OSError` escaping to the top. -/
  | fileNotFound (p : String)
  /-- `subprocess.CalledProcessError` escaping to the top. -/
  | calledProcessError
  /-- `EOFError` escaping to the top. -/
  | eofError
  /-- An explicit `sys.exit(code)`. -/
  | sysExit (code : Nat)
deriving DecidableEq, Repr

/-- Exit behaviour of one external merge-tool invocation. -/
inductive ProcExit
  /-- The tool started and exited with status 0. -/
  | ok
  /-- The tool started and exited with a non-zero status. -/
  | fail
  /-- The executable could not be found (`FileNotFoundError`). -/
  | notFound
deriving DecidableEq, Repr

/-- Run configuration established once at startup. -/
structure Cfg where
  /-- Dry-run flag (`--debug`). -/
  debug : Bool
  /-- Selected merge frontend (`self.frontend`), `none` when unset. -/
  frontend : Option String
  /-- Value of the `MERGE` environment variable, `none` when unset. -/
  mergeEnv : Option String
deriving DecidableEq, Repr

/-- Uppercasing of an input line (`str.upper`), mapping `Char.toUpper`
over the characters. -/
def toUpperStr (s : String) : String :=
  String.mk (s.toList.map Char.toUpper)

/-- Abbreviated marker for the `_handle_rpmnew` prompt template
(`... The default action is to keep your current version. [default=N]`). -/
def promptRpmnew : String :=
  "prompt rpmnew [default=N]"

/-- Abbreviated marker for the `_handle_rpmsave` prompt template
(`... The default action is to keep package maintainers version. [default=Y]`). -/
def promptRpmsave : String :=
  "prompt rpmsave [default=Y]"

/-- Prompt template selected by the variant kind. -/
def promptText (isNew : Bool) : String :=
  if isNew then promptRpmnew else promptRpmsave

/-- Default choice substituted for empty input (`if not option:`). -/
def defaultChoice (isNew : Bool) : String :=
  if isNew then "N" else "Y"

/-- Lines printed by `_ls_conf_file` when both files exist. -/
def lsLines (conf other : String) : List String :=
  ["Configuration file " ++ conf, "ls -ltrd " ++ conf ++ " " ++ other]

/-- Model of `_ls_conf_file`: prints a header and the `ls -ltrd` listing of
the two files; `subprocess.check_output` raises `CalledProcessError`
(uncaught) when `ls` exits non-zero, which happens when either operand is
missing. -/
def ls_conf_file (fs : FS) (conf other : String) : Except Err (List String) :=
  if (FS.lookup fs conf).isSome && (FS.lookup fs other).isSome then
    .ok (lsLines conf other)
  else
    .error Err.calledProcessError

/-- Model of `show_diff`: reads both files (`os.stat` raises on a missing
file) and sends a unified diff to the pager; read-only. -/
def show_diff (fs : FS) (a b : String) : Except Err (List String) :=
  match FS.lookup fs a with
  | none => .error (Err.fileNotFound a)
  | some _ =>
    match FS.lookup fs b with
    | none => .error (Err.fileNotFound b)
    | some _ => .ok (["show_diff " ++ a ++ " " ++ b])

/-- Model of `_copy` for regular files: `shutil.copy2(src, dst)`; raises
`FileNotFoundError` when the source is missing. -/
def copy (fs : FS) (src dst : String) : Except Err FS :=
  match FS.lookup fs src with
  | none => .error (Err.fileNotFound src)
  | some c => .ok (FS.write fs dst c)

/-- Model of `_remove`: in debug (dry-run) mode print `rm <path>` and do
nothing; otherwise `os.unlink`, raising `FileNotFoundError` on a missing
path. -/
def remove (cfg : Cfg) (fs : FS) (p : String) : Except Err (FS × List String) :=
  if cfg.debug then
    .ok (fs, ["rm " ++ p])
  else
    match FS.lookup fs p with
    | none => .error (Err.fileNotFound p)
    | some _ => .ok (FS.erase fs p, [])

/-- Model of `_overwrite`: in debug mode print the intended `cp` command and
do nothing; otherwise copy `src` over `dst` and then remove `src`. -/
def overwrite (cfg : Cfg) (fs : FS) (src dst : String) : Except Err (FS × List String) :=
  if cfg.debug then
    .ok (fs, ["cp --no-dereference " ++ src ++ " " ++ dst])
  else
    match copy fs src dst with
    | .error e => .error e
    | .ok fs1 => remove cfg fs1 src

/-- Model of `_merge_conf_files`: dispatch on the configured frontend.
`exit_` is the exit behaviour of the external invocation.  The single
`except FileNotFoundError` around the whole dispatch turns any
`FileNotFoundError` (tool missing, or `os.unlink` inside the kdiff3
post-actions) into `sys.exit(4)`; a non-zero exit of the vimdiff family or
of the `MERGE` command is an uncaught `CalledProcessError`; no resolvable
frontend is `sys.exit(2)`. -/
def merge_conf_files (cfg : Cfg) (fs : FS) (conf other : String)
    (exit_ : ProcExit) : Except Err (FS × List String) :=
  let envCase : Except Err (FS × List String) :=
    match cfg.mergeEnv with
    | some cmd =>
      match exit_ with
      | .ok => .ok (fs, ["merge " ++ cmd])
      | .fail => .error Err.calledProcessError
      | .notFound => .error (Err.sysExit 4)
    | none => .error (Err.sysExit 2)
  match cfg.frontend with
  | some f =>
    if f = "vimdiff" ∨ f = "gvimdiff" ∨ f = "meld" then
      match exit_ with
      | .ok => .ok (fs, [])
      | .fail => .error Err.calledProcessError
      | .notFound => .error (Err.sysExit 4)
    else if f = "diffuse" then
      match exit_ with
      | .ok => .ok (fs, [])
      | .fail => .ok (fs, ["Files not merged."])
      | .notFound => .error (Err.sysExit 4)
    else if f = "kdiff3" then
      match exit_ with
      | .ok =>
        match remove cfg fs other with
        | .error (Err.fileNotFound _) => .error (Err.sysExit 4)
        | .error e => .error e
        | .ok (fs1, out1) =>
          match remove cfg fs1 (conf ++ ".orig") with
          | .error (Err.fileNotFound _) => .error (Err.sysExit 4)
          | .error e => .error e
          | .ok (fs2, out2) => .ok (fs2, out1 ++ out2)
      | .fail => .ok (fs, ["Files not merged."])
      | .notFound => .error (Err.sysExit 4)
    else if f = "env" then envCase
    else .error (Err.sysExit 2)
  | none => envCase

/-- Result of the interactive resolution loop for one (base, variant) pair:
final filesystem, remaining input lines, remaining subprocess oracle, the
terminal option string (`Y`/`I`/`N`/`O`/`S`, or `AUTO` for the silent
identical-contents pre-check), and the printed output. -/
structure LoopRes where
  fs : FS
  inputs : List String
  exits : List ProcExit
  opt : String
  out : List String
deriving DecidableEq, Repr

/-- The non-terminal side effects of one loop iteration, executed on the
post-default option: `D` shows the diff (base first for the new variant,
variant first for the saved one), `M` invokes the merge dispatcher
(consuming one subprocess exit from the oracle), `Z` (whole-process
suspend) and unmapped input have no filesystem effect. -/
def loop_effects (cfg : Cfg) (conf other : String) (isNew : Bool)
    (option : String) (fs : FS) (exits : List ProcExit) :
    Except Err (FS × List ProcExit × List String) :=
  if option = "D" then
    match show_diff fs (if isNew then conf else other)
        (if isNew then other else conf) with
    | .error e => .error e
    | .ok d => .ok (fs, exits, d)
  else if option = "M" then
    match merge_conf_files cfg fs conf other (exits.headD ProcExit.ok) with
    | .error e => .error e
    | .ok (fs1, m) => .ok (fs1, exits.tail, m)
  else
    .ok (fs, exits, [])

/-- The `while option not in [Y, I, N, O, S]` loop shared by
`_handle_rpmnew` (`isNew = true`) and `_handle_rpmsave` (`isNew = false`).
Each iteration: list the two files, print the prompt, read a line
(`EOFError` on exhausted input turns into option `S`), substitute the
template default for empty input, run the `D`/`Z`/`M` side effects and
re-loop, or perform the terminal action.  Terminal actions: for the new
variant `Y`/`I` overwrites the base with the variant and `N`/`O` removes
the variant; for the saved variant the polarity is inverted. -/
def handle_loop (cfg : Cfg) (conf other : String) (isNew : Bool) :
    List String → FS → List ProcExit → Except Err LoopRes
  | [], fs, exits =>
    match ls_conf_file fs conf other with
    | .error e => .error e
    | .ok lsOut => .ok ⟨fs, [], exits, "S", lsOut ++ [promptText isNew]⟩
  | line :: rest, fs, exits =>
    match ls_conf_file fs conf other with
    | .error e => .error e
    | .ok lsOut =>
      let o1 := toUpperStr line
      let option := if o1 = "" then defaultChoice isNew else o1
      if option = "Y" ∨ option = "I" then
        match (if isNew then overwrite cfg fs other conf else remove cfg fs other) with
        | .error e => .error e
        | .ok (fs1, out1) =>
          .ok ⟨fs1, rest, exits, option, lsOut ++ [promptText isNew] ++ out1⟩
      else if option = "N" ∨ option = "O" then
        match (if isNew then remove cfg fs other else overwrite cfg fs other conf) with
        | .error e => .error e
        | .ok (fs1, out1) =>
          .ok ⟨fs1, rest, exits, option, lsOut ++ [promptText isNew] ++ out1⟩
      else if option = "S" then
        .ok ⟨fs, rest, exits, "S", lsOut ++ [promptText isNew]⟩
      else
        match loop_effects cfg conf other isNew option fs exits with
        | .error e => .error e
        | .ok (fs1, exits1, out1) =>
          match handle_loop cfg conf other isNew rest fs1 exits1 with
          | .error e => .error e
          | .ok r => .ok ⟨r.fs, r.inputs, r.exits, r.opt,
              lsOut ++ [promptText isNew] ++ out1 ++ r.out⟩

/-- Model of `_handle_rpmnew`: `filecmp.cmp` pre-check (byte equality;
`FileNotFoundError` when either file is missing, the base is checked
first), silently removing the variant on equality, otherwise entering the
interactive loop with the new-variant template. -/
def handle_rpmnew (cfg : Cfg) (fs : FS) (conf other : String)
    (inputs : List String) (exits : List ProcExit) : Except Err LoopRes :=
  match FS.lookup fs conf with
  | none => .error (Err.fileNotFound conf)
  | some c =>
    match FS.lookup fs other with
    | none => .error (Err.fileNotFound other)
    | some o =>
      if c = o then
        match remove cfg fs other with
        | .error e => .error e
        | .ok (fs1, out1) => .ok ⟨fs1, inputs, exits, "AUTO", out1⟩
      else
        handle_loop cfg conf other true inputs fs exits

/-- Model of `_handle_rpmsave` (also used for `.rpmorig` files): identical
pre-check, then the interactive loop with the saved-variant template. -/
def handle_rpmsave (cfg : Cfg) (fs : FS) (conf other : String)
    (inputs : List String) (exits : List ProcExit) : Except Err LoopRes :=
  match FS.lookup fs conf with
  | none => .error (Err.fileNotFound conf)
  | some c =>
    match FS.lookup fs other with
    | none => .error (Err.fileNotFound other)
    | some o =>
      if c = o then
        match remove cfg fs other with
        | .error e => .error e
        | .ok (fs1, out1) => .ok ⟨fs1, inputs, exits, "AUTO", out1⟩
      else
        handle_loop cfg conf other false inputs fs exits

/-- Result of processing one or more config files: final filesystem,
remaining inputs and subprocess oracle, printed output. -/
structure RunRes where
  fs : FS
  inputs : List String
  exits : List ProcExit
  out : List String
deriving DecidableEq, Repr

/-- Model of the non-diff branch of `_handle_package` for a single config
file: for each of the three suffixes, an `os.access(..., F_OK)` existence
check followed by the corresponding handler, sequentially threading the
filesystem and the input stream; `.rpmorig` files are handled by
`_handle_rpmsave`. -/
def handle_conf_file (cfg : Cfg) (fs : FS) (conf : String)
    (inputs : List String) (exits : List ProcExit) : Except Err RunRes :=
  match (if (FS.lookup fs (conf ++ ".rpmnew")).isSome then
           handle_rpmnew cfg fs conf (conf ++ ".rpmnew") inputs exits
         else .ok ⟨fs, inputs, exits, "", []⟩) with
  | .error e => .error e
  | .ok r1 =>
    match (if (FS.lookup r1.fs (conf ++ ".rpmsave")).isSome then
             handle_rpmsave cfg r1.fs conf (conf ++ ".rpmsave") r1.inputs r1.exits
           else .ok ⟨r1.fs, r1.inputs, r1.exits, "", []⟩) with
    | .error e => .error e
    | .ok r2 =>
      match (if (FS.lookup r2.fs (conf ++ ".rpmorig")).isSome then
               handle_rpmsave cfg r2.fs conf (conf ++ ".rpmorig") r2.inputs r2.exits
             else .ok ⟨r2.fs, r2.inputs, r2.exits, "", []⟩) with
      | .error e => .error e
      | .ok r3 => .ok ⟨r3.fs, r3.inputs, r3.exits, r1.out ++ r2.out ++ r3.out⟩

/-- Model of `run` over the flattened list of config files of the selected
packages (the package database supplying the list is an external
collaborator): process each file in order; an uncaught exception
propagates and ends the whole run. -/
def runFiles (cfg : Cfg) :
    List String → FS → List String → List ProcExit → Except Err RunRes
  | [], fs, inputs, exits => .ok ⟨fs, inputs, exits, []⟩
  | conf :: rest, fs, inputs, exits =>
    match handle_conf_file cfg fs conf inputs exits with
    | .error e => .error e
    | .ok r =>
      match runFiles cfg rest r.fs r.inputs r.exits with
      | .error e => .error e
      | .ok r2 => .ok ⟨r2.fs, r2.inputs, r2.exits, r.out ++ r2.out⟩

/-- Characters of the last path component (after the final `/`), as used by
`os.path.splitext` which only looks at the basename. -/
def basenameChars (l : List Char) : List Char :=
  (l.reverse.takeWhile (fun c => c != '/')).reverse

/-- Extension of a basename following `os.path.splitext`: the suffix from
the last dot, provided some character of the basename strictly before that
dot is not itself a dot (so purely leading dots yield no extension). -/
def extOfBasename (b : List Char) : List Char :=
  let r := b.reverse
  match r.dropWhile (fun c => c != '.') with
  | [] => []
  | _ :: tail =>
    if tail.any (fun c => c != '.') then
      '.' :: (r.takeWhile (fun c => c != '.')).reverse
    else []

/-- Model of `os.path.splitext(p)[1]`. -/
def splitextExt (p : String) : String :=
  String.mk (extOfBasename (basenameChars p.toList))

/-- Model of `os.path.splitext(p)[0]`. -/
def splitextRoot (p : String) : String :=
  String.mk (p.toList.take (p.toList.length - (extOfBasename (basenameChars p.toList)).length))

/-- The filter applied by `_clean_orphan` to every regular file found by
the walk: `os.path.splitext(l_name)[1] in [".rpmnew", ".rpmsave"]`. -/
def orphanConsiders (p : String) : Bool :=
  [".rpmnew", ".rpmsave"].contains (splitextExt p)

/-- Model of `_clean_orphan_file`: strip the extension, ask the package
database who owns the base path (`rpm -qf`; the oracle returns `none` when
the lookup fails with `CalledProcessError`).  Returns the
`[package_merge, orig, name]` triple and the optional delete candidate. -/
def clean_orphan_file (owner : String → Option String) (name : String) :
    (Option String × String × String) × Option String :=
  let orig := splitextRoot name
  match owner orig with
  | some pkg => ((some pkg, orig, name), none)
  | none => ((none, orig, name), some name)

/-- Python truthiness of `file_merge[0]` (`None` and the empty string are
falsy). -/
def pythonTruthy : Option String → Bool
  | some s => s != ""
  | none => false

/-- The classification pass of `_clean_orphan` over the list of file names
produced by the walk (the walk itself, `os.walk` over `/etc`, `/var` and
`/usr`, is an external collaborator): builds `files_merge` and
`files_delete` in walk order. -/
def cleanOrphanScan (owner : String → Option String) :
    List String → List (Option String × String × String) × List String
  | [] => ([], [])
  | n :: rest =>
    let here :=
      if orphanConsiders n then
        let r := clean_orphan_file owner n
        ((if pythonTruthy r.1.1 then [r.1] else []),
         (match r.2 with
          | some d => [d]
          | none => ([] : List String)))
      else (([] : List (Option String × String × String)), ([] : List String))
    let (ms2, ds2) := cleanOrphanScan owner rest
    (here.1 ++ ms2, here.2 ++ ds2)

/-- The confirmation loop of `_clean_orphan`:
`while answer not in [Y, N, ""]: answer = flush_input(...).upper()`.
There is no `except EOFError` here, so exhausted input is an uncaught
`EOFError`. -/
def firstAnswer : List String → Except Err String
  | [] => .error Err.eofError
  | x :: rest =>
    let a := toUpperStr x
    if a = "Y" ∨ a = "N" ∨ a = "" then .ok a else firstAnswer rest

/-- Removing every file of a list in order via `_remove`. -/
def removeAll (cfg : Cfg) : FS → List String → Except Err (FS × List String)
  | fs, [] => .ok (fs, [])
  | fs, p :: rest =>
    match remove cfg fs p with
    | .error e => .error e
    | .ok (fs1, out1) =>
      match removeAll cfg fs1 rest with
      | .error e => .error e
      | .ok (fs2, out2) => .ok (fs2, out1 ++ out2)

/-- The reporting and deletion phase of `_clean_orphan` on the collected
`files_delete` list: with no candidates print the nothing-found message;
otherwise list the candidates, ask the single batch confirmation, and on
`Y` or empty input delete every candidate. -/
def cleanOrphanConfirm (cfg : Cfg) (fs : FS) (deletes : List String)
    (inputs : List String) : Except Err (FS × List String) :=
  match deletes with
  | [] => .ok (fs, ["No orphaned .rpmnew and .rpmsave files found."])
  | _ :: _ =>
    match firstAnswer inputs with
    | .error e => .error e
    | .ok a =>
      if a = "Y" ∨ a = "" then
        match removeAll cfg fs deletes with
        | .error e => .error e
        | .ok (fs1, out1) =>
          .ok (fs1, ("Orphaned .rpmnew and .rpmsave files:" :: deletes) ++ out1)
      else
        .ok (fs, "Orphaned .rpmnew and .rpmsave files:" :: deletes)

/-- Model of `_clean_orphan`: classify every walked file name, report the
needs-merging entries, then run the confirmation and deletion phase on the
delete candidates. -/
def clean_orphan (cfg : Cfg) (owner : String → Option String)
    (names : List String) (fs : FS) (inputs : List String) :
    Except Err (FS × List String) :=
  let scanned := cleanOrphanScan owner names
  let mergeOut :=
    if scanned.1 = [] then ([] : List String)
    else "These files need merging:" ::
      scanned.1.map (fun m => (m.1.getD "") ++ ": " ++ m.2.2)
  match cleanOrphanConfirm cfg fs scanned.2 inputs with
  | .error e => .error e
  | .ok (fs1, out1) => .ok (fs1, mergeOut ++ out1)

/-! Basic lemmas about the filesystem model and the file primitives. -/

theorem FS.lookup_erase (fs : FS) (p q : String) :
    FS.lookup (FS.erase fs p) q = if q = p then none else FS.lookup fs q := by
  induction fs with
  | nil => simp [FS.erase, FS.lookup]
  | cons a rest ih =>
    by_cases hap : a.1 = p
    · have h1 : FS.erase (a :: rest) p = FS.erase rest p := by
        simp [FS.erase, List.filter_cons, hap]
      rw [h1, ih]
      by_cases hqp : q = p
      · simp [hqp]
      · have haq : ¬ a.1 = q := by rw [hap]; exact fun h => hqp h.symm
        simp [FS.lookup, hqp, haq]
    · have h1 : FS.erase (a :: rest) p = a :: FS.erase rest p := by
        simp [FS.erase, List.filter_cons, hap]
      rw [h1]
      by_cases haq : a.1 = q
      · have hqp : ¬ q = p := by rw [← haq]; exact hap
        simp [FS.lookup, haq, hqp]
      · simp [FS.lookup, haq, ih]

theorem FS.lookup_erase_self (fs : FS) (p : String) :
    FS.lookup (FS.erase fs p) p = none := by
  simp [FS.lookup_erase]

theorem FS.lookup_erase_ne (fs : FS) (p q : String) (h : q ≠ p) :
    FS.lookup (FS.erase fs p) q = FS.lookup fs q := by
  simp [FS.lookup_erase, h]

theorem FS.lookup_write (fs : FS) (p q : String) (c : Bytes) :
    FS.lookup (FS.write fs p c) q = if p = q then some c else FS.lookup fs q := by
  by_cases h : p = q
  · simp [FS.write, FS.lookup, h]
  · simp [FS.write, FS.lookup, h]
    exact FS.lookup_erase_ne fs p q (fun hq => h hq.symm)

theorem remove_debug (cfg : Cfg) (fs : FS) (p : String) (h : cfg.debug = true) :
    remove cfg fs p = .ok (fs, ["rm " ++ p]) := by
  simp [remove, h]

theorem remove_ok_fs (cfg : Cfg) (fs fs1 : FS) (p : String) (out : List String)
    (hdbg : cfg.debug = false) (h : remove cfg fs p = .ok (fs1, out)) :
    fs1 = FS.erase fs p := by
  simp only [remove, hdbg, Bool.false_eq_true, if_false] at h
  match hl : FS.lookup fs p with
  | none => rw [hl] at h; cases h
  | some c => rw [hl] at h; cases h; rfl

theorem remove_ok_lookup (cfg : Cfg) (fs fs1 : FS) (p : String) (out : List String)
    (hdbg : cfg.debug = false) (h : remove cfg fs p = .ok (fs1, out)) :
    FS.lookup fs1 p = none := by
  rw [remove_ok_fs cfg fs fs1 p out hdbg h]
  exact FS.lookup_erase_self fs p

theorem remove_debug_fs (cfg : Cfg) (fs fs1 : FS) (p : String) (out : List String)
    (hdbg : cfg.debug = true) (h : remove cfg fs p = .ok (fs1, out)) :
    fs1 = fs := by
  rw [remove_debug cfg fs p hdbg] at h
  cases h; rfl

theorem overwrite_debug (cfg : Cfg) (fs : FS) (src dst : String)
    (h : cfg.debug = true) :
    overwrite cfg fs src dst = .ok (fs, ["cp --no-dereference " ++ src ++ " " ++ dst]) := by
  simp [overwrite, h]

theorem overwrite_debug_fs (cfg : Cfg) (fs fs1 : FS) (src dst : String)
    (out : List String) (hdbg : cfg.debug = true)
    (h : overwrite cfg fs src dst = .ok (fs1, out)) : fs1 = fs := by
  rw [overwrite_debug cfg fs src dst hdbg] at h
  cases h; rfl

theorem overwrite_ok_lookup (cfg : Cfg) (fs fs1 : FS) (src dst : String)
    (out : List String) (hdbg : cfg.debug = false)
    (h : overwrite cfg fs src dst = .ok (fs1, out)) :
    FS.lookup fs1 src = none := by
  simp only [overwrite, hdbg, Bool.false_eq_true, if_false] at h
  match hc : copy fs src dst with
  | .error e => rw [hc] at h; cases h
  | .ok fs2 =>
    rw [hc] at h
    exact remove_ok_lookup cfg fs2 fs1 src out hdbg h

theorem merge_ok_fs (cfg : Cfg) (fs fs1 : FS) (conf other : String)
    (ex : ProcExit) (out : List String)
    (h : merge_conf_files cfg fs conf other ex = .ok (fs1, out)) :
    fs1 = fs ∨ (cfg.debug = false ∧ FS.lookup fs1 other = none) := by
  obtain ⟨dbg, fr, me⟩ := cfg
  cases fr with
  | none =>
    cases me <;> cases ex <;> simp [merge_conf_files] at h
    exact Or.inl h.1.symm
  | some f =>
    by_cases h1 : f = "vimdiff" ∨ f = "gvimdiff" ∨ f = "meld"
    · cases ex <;> simp [merge_conf_files, h1] at h
      exact Or.inl h.1.symm
    · by_cases h2 : f = "diffuse"
      · cases ex <;> simp [merge_conf_files, h1, h2] at h <;>
          exact Or.inl h.1.symm
      · by_cases h3 : f = "kdiff3"
        · cases ex with
          | ok =>
            cases dbg with
            | true =>
              simp [merge_conf_files, h1, h2, h3, remove] at h
              exact Or.inl h.1.symm
            | false =>
              cases hlo : FS.lookup fs other with
              | none => simp [merge_conf_files, h1, h2, h3, remove, hlo] at h
              | some c =>
                cases hlo2 : FS.lookup (FS.erase fs other) (conf ++ ".orig") with
                | none => simp [merge_conf_files, h1, h2, h3, remove, hlo, hlo2] at h
                | some c2 =>
                  simp [merge_conf_files, h1, h2, h3, remove, hlo, hlo2] at h
                  refine Or.inr ⟨rfl, ?_⟩
                  rw [← h.1, FS.lookup_erase]
                  split
                  · rfl
                  · exact FS.lookup_erase_self fs other
          | fail =>
            simp [merge_conf_files, h1, h2, h3] at h
            exact Or.inl h.1.symm
          | notFound => simp [merge_conf_files, h1, h2, h3] at h
        · by_cases h4 : f = "env"
          · cases me <;> cases ex <;> simp [merge_conf_files, h1, h2, h3, h4] at h
            exact Or.inl h.1.symm
          · simp [merge_conf_files, h1, h2, h3, h4] at h

theorem loop_effects_ok_fs (cfg : Cfg) (conf other : String) (isNew : Bool)
    (option : String) (fs fs1 : FS) (exits exits1 : List ProcExit)
    (out1 : List String)
    (h : loop_effects cfg conf other isNew option fs exits = .ok (fs1, exits1, out1)) :
    fs1 = fs ∨ (cfg.debug = false ∧ FS.lookup fs1 other = none) := by
  unfold loop_effects at h
  by_cases hD : option = "D"
  · simp only [hD, if_true] at h
    cases hsd : show_diff fs (if isNew then conf else other)
        (if isNew then other else conf) with
    | error e => rw [hsd] at h; cases h
    | ok d =>
      rw [hsd] at h
      cases h
      exact Or.inl rfl
  · by_cases hM : option = "M"
    · simp only [hD, hM, if_false, if_true] at h
      cases hm : merge_conf_files cfg fs conf other (exits.headD ProcExit.ok) with
      | error e => rw [hm] at h; cases h
      | ok r =>
        rw [hm] at h
        cases h
        exact merge_ok_fs cfg fs r.1 conf other (exits.headD ProcExit.ok) r.2 (by rw [hm])
    · simp only [hD, hM, if_false] at h
      cases h
      exact Or.inl rfl

theorem action_new_ok_lookup (cfg : Cfg) (fs fs1 : FS) (conf other : String)
    (out : List String) (b : Bool) (hdbg : cfg.debug = false)
    (h : (if b = true then overwrite cfg fs other conf else remove cfg fs other)
      = Except.ok (fs1, out)) :
    FS.lookup fs1 other = none := by
  cases b
  · simp only [Bool.false_eq_true, if_false] at h
    exact remove_ok_lookup cfg fs fs1 other out hdbg h
  · simp only [if_true] at h
    exact overwrite_ok_lookup cfg fs fs1 other conf out hdbg h

theorem action_save_ok_lookup (cfg : Cfg) (fs fs1 : FS) (conf other : String)
    (out : List String) (b : Bool) (hdbg : cfg.debug = false)
    (h : (if b = true then remove cfg fs other else overwrite cfg fs other conf)
      = Except.ok (fs1, out)) :
    FS.lookup fs1 other = none := by
  cases b
  · simp only [Bool.false_eq_true, if_false] at h
    exact overwrite_ok_lookup cfg fs fs1 other conf out hdbg h
  · simp only [if_true] at h
    exact remove_ok_lookup cfg fs fs1 other out hdbg h

theorem action_new_debug_fs (cfg : Cfg) (fs fs1 : FS) (conf other : String)
    (out : List String) (b : Bool) (hdbg : cfg.debug = true)
    (h : (if b = true then overwrite cfg fs other conf else remove cfg fs other)
      = Except.ok (fs1, out)) :
    fs1 = fs := by
  cases b
  · simp only [Bool.false_eq_true, if_false] at h
    exact remove_debug_fs cfg fs fs1 other out hdbg h
  · simp only [if_true] at h
    exact overwrite_debug_fs cfg fs fs1 other conf out hdbg h

theorem action_save_debug_fs (cfg : Cfg) (fs fs1 : FS) (conf other : String)
    (out : List String) (b : Bool) (hdbg : cfg.debug = true)
    (h : (if b = true then remove cfg fs other else overwrite cfg fs other conf)
      = Except.ok (fs1, out)) :
    fs1 = fs := by
  cases b
  · simp only [Bool.false_eq_true, if_false] at h
    exact overwrite_debug_fs cfg fs fs1 other conf out hdbg h
  · simp only [if_true] at h
    exact remove_debug_fs cfg fs fs1 other out hdbg h

theorem handle_loop_absent (cfg : Cfg) (conf other : String) (isNew : Bool)
    (inputs : List String) (fs : FS) (exits : List ProcExit)
    (h : FS.lookup fs other = none) :
    handle_loop cfg conf other isNew inputs fs exits = .error Err.calledProcessError := by
  cases inputs <;> simp [handle_loop, ls_conf_file, h]

theorem handle_loop_nonskip_lookup (cfg : Cfg) (conf other : String) (isNew : Bool)
    (hdbg : cfg.debug = false) :
    ∀ (inputs : List String) (fs : FS) (exits : List ProcExit)
      (fs' : FS) (ins' : List String) (exs' : List ProcExit)
      (opt' : String) (out' : List String),
      handle_loop cfg conf other isNew inputs fs exits = .ok ⟨fs', ins', exs', opt', out'⟩ →
      opt' ≠ "S" → FS.lookup fs' other = none := by
  intro inputs
  induction inputs with
  | nil =>
    intro fs exits fs' ins' exs' opt' out' h hS
    simp only [handle_loop] at h
    split at h
    · exact Except.noConfusion h
    · injection h with h2
      injection h2 with hf hi he ho hu
      subst ho
      exact absurd rfl hS
  | cons line rest ih =>
    intro fs exits fs' ins' exs' opt' out' h hS
    simp only [handle_loop] at h
    repeat' split at h
    all_goals
      first
      | exact Except.noConfusion h
      | (injection h with h2
         injection h2 with hf hi he ho hu
         subst hf
         subst ho
         first
         | exact absurd rfl hS
         | exact action_new_ok_lookup cfg _ _ conf other _ _ hdbg (by assumption)
         | exact action_save_ok_lookup cfg _ _ conf other _ _ hdbg (by assumption)
         | exact ih _ _ _ _ _ _ _ (by assumption) hS)

theorem loop_effects_debug_fs (cfg : Cfg) (conf other : String) (isNew : Bool)
    (option : String) (fs fs1 : FS) (exits exits1 : List ProcExit)
    (out1 : List String) (hdbg : cfg.debug = true)
    (h : loop_effects cfg conf other isNew option fs exits = .ok (fs1, exits1, out1)) :
    fs1 = fs := by
  rcases loop_effects_ok_fs cfg conf other isNew option fs fs1 exits exits1 out1 h with hfs | hc
  · exact hfs
  · rw [hc.1] at hdbg
    exact Bool.noConfusion hdbg

theorem loop_effects_absent_or (cfg : Cfg) (conf other : String) (isNew : Bool)
    (option : String) (fs fs1 : FS) (exits exits1 : List ProcExit)
    (out1 : List String)
    (h : loop_effects cfg conf other isNew option fs exits = .ok (fs1, exits1, out1)) :
    fs1 = fs ∨ ∀ (ins2 : List String) (exs2 : List ProcExit),
      handle_loop cfg conf other isNew ins2 fs1 exs2 = .error Err.calledProcessError := by
  rcases loop_effects_ok_fs cfg conf other isNew option fs fs1 exits exits1 out1 h with hfs | hc
  · exact Or.inl hfs
  · exact Or.inr (fun ins2 exs2 => handle_loop_absent cfg conf other isNew ins2 fs1 exs2 hc.2)

theorem handle_loop_skip_fs (cfg : Cfg) (conf other : String) (isNew : Bool) :
    ∀ (inputs : List String) (fs : FS) (exits : List ProcExit)
      (fs' : FS) (ins' : List String) (exs' : List ProcExit)
      (opt' : String) (out' : List String),
      handle_loop cfg conf other isNew inputs fs exits = .ok ⟨fs', ins', exs', opt', out'⟩ →
      opt' = "S" → fs' = fs := by
  intro inputs
  induction inputs with
  | nil =>
    intro fs exits fs' ins' exs' opt' out' h hS
    simp only [handle_loop] at h
    split at h
    · exact Except.noConfusion h
    · injection h with h2
      injection h2 with hf hi he ho hu
      exact hf.symm
  | cons line rest ih =>
    intro fs exits fs' ins' exs' opt' out' h hS
    simp only [handle_loop] at h
    repeat' split at h
    all_goals
      first
      | exact Except.noConfusion h
      | (injection h with h2
         injection h2 with hf hi he ho hu
         subst ho
         first
         | exact hf.symm
         | (simp only [hS] at *
            first
            | exact absurd (by assumption : "S" = "Y" ∨ "S" = "I") (by decide)
            | exact absurd (by assumption : "S" = "N" ∨ "S" = "O") (by decide))
         | (rcases loop_effects_absent_or _ _ _ _ _ _ _ _ _ _ (by assumption) with hfs | habs
            · subst hfs
              exact hf ▸ ih _ _ _ _ _ _ _ (by assumption) hS
            · simp only [habs] at *
              contradiction))

theorem handle_loop_debug_fs (cfg : Cfg) (conf other : String) (isNew : Bool)
    (hdbg : cfg.debug = true) :
    ∀ (inputs : List String) (fs : FS) (exits : List ProcExit)
      (fs' : FS) (ins' : List String) (exs' : List ProcExit)
      (opt' : String) (out' : List String),
      handle_loop cfg conf other isNew inputs fs exits = .ok ⟨fs', ins', exs', opt', out'⟩ →
      fs' = fs := by
  intro inputs
  induction inputs with
  | nil =>
    intro fs exits fs' ins' exs' opt' out' h
    simp only [handle_loop] at h
    split at h
    · exact Except.noConfusion h
    · injection h with h2
      injection h2 with hf hi he ho hu
      exact hf.symm
  | cons line rest ih =>
    intro fs exits fs' ins' exs' opt' out' h
    simp only [handle_loop] at h
    repeat' split at h
    all_goals
      first
      | exact Except.noConfusion h
      | (injection h with h2
         injection h2 with hf hi he ho hu
         first
         | exact hf.symm
         | exact hf ▸ action_new_debug_fs cfg _ _ conf other _ _ hdbg (by assumption)
         | exact hf ▸ action_save_debug_fs cfg _ _ conf other _ _ hdbg (by assumption)
         | (have hfs := loop_effects_debug_fs cfg _ _ _ _ _ _ _ _ _ hdbg (by assumption)
            subst hfs
            exact hf ▸ ih _ _ _ _ _ _ _ (by assumption)))

theorem handle_rpmnew_nonskip (cfg : Cfg) (fs : FS) (conf other : String)
    (inputs : List String) (exits : List ProcExit)
    (fs' : FS) (ins' : List String) (exs' : List ProcExit)
    (opt' : String) (out' : List String) (hdbg : cfg.debug = false)
    (h : handle_rpmnew cfg fs conf other inputs exits = .ok ⟨fs', ins', exs', opt', out'⟩)
    (hS : opt' ≠ "S") : FS.lookup fs' other = none := by
  simp only [handle_rpmnew] at h
  repeat' split at h
  all_goals
    first
    | exact Except.noConfusion h
    | (injection h with h2
       injection h2 with hf hi he ho hu
       subst hf
       exact remove_ok_lookup cfg _ _ other _ hdbg (by assumption))
    | exact handle_loop_nonskip_lookup cfg conf other true hdbg _ _ _ _ _ _ _ _ h hS

theorem handle_rpmsave_nonskip (cfg : Cfg) (fs : FS) (conf other : String)
    (inputs : List String) (exits : List ProcExit)
    (fs' : FS) (ins' : List String) (exs' : List ProcExit)
    (opt' : String) (out' : List String) (hdbg : cfg.debug = false)
    (h : handle_rpmsave cfg fs conf other inputs exits = .ok ⟨fs', ins', exs', opt', out'⟩)
    (hS : opt' ≠ "S") : FS.lookup fs' other = none := by
  simp only [handle_rpmsave] at h
  repeat' split at h
  all_goals
    first
    | exact Except.noConfusion h
    | (injection h with h2
       injection h2 with hf hi he ho hu
       subst hf
       exact remove_ok_lookup cfg _ _ other _ hdbg (by assumption))
    | exact handle_loop_nonskip_lookup cfg conf other false hdbg _ _ _ _ _ _ _ _ h hS

theorem handle_rpmnew_skip (cfg : Cfg) (fs : FS) (conf other : String)
    (inputs : List String) (exits : List ProcExit)
    (fs' : FS) (ins' : List String) (exs' : List ProcExit)
    (opt' : String) (out' : List String)
    (h : handle_rpmnew cfg fs conf other inputs exits = .ok ⟨fs', ins', exs', opt', out'⟩)
    (hS : opt' = "S") :
    fs' = fs ∧ (FS.lookup fs conf).isSome = true ∧ (FS.lookup fs other).isSome = true := by
  simp only [handle_rpmnew] at h
  repeat' split at h
  all_goals
    first
    | exact Except.noConfusion h
    | (injection h with h2
       injection h2 with hf hi he ho hu
       subst ho
       exact absurd hS (by decide))
    | exact ⟨handle_loop_skip_fs cfg conf other true _ _ _ _ _ _ _ _ h hS,
        by simp [*], by simp [*]⟩

theorem handle_rpmsave_skip (cfg : Cfg) (fs : FS) (conf other : String)
    (inputs : List String) (exits : List ProcExit)
    (fs' : FS) (ins' : List String) (exs' : List ProcExit)
    (opt' : String) (out' : List String)
    (h : handle_rpmsave cfg fs conf other inputs exits = .ok ⟨fs', ins', exs', opt', out'⟩)
    (hS : opt' = "S") :
    fs' = fs ∧ (FS.lookup fs conf).isSome = true ∧ (FS.lookup fs other).isSome = true := by
  simp only [handle_rpmsave] at h
  repeat' split at h
  all_goals
    first
    | exact Except.noConfusion h
    | (injection h with h2
       injection h2 with hf hi he ho hu
       subst ho
       exact absurd hS (by decide))
    | exact ⟨handle_loop_skip_fs cfg conf other false _ _ _ _ _ _ _ _ h hS,
        by simp [*], by simp [*]⟩

theorem handle_rpmnew_debug_fs (cfg : Cfg) (fs : FS) (conf other : String)
    (inputs : List String) (exits : List ProcExit)
    (fs' : FS) (ins' : List String) (exs' : List ProcExit)
    (opt' : String) (out' : List String) (hdbg : cfg.debug = true)
    (h : handle_rpmnew cfg fs conf other inputs exits = .ok ⟨fs', ins', exs', opt', out'⟩) :
    fs' = fs := by
  simp only [handle_rpmnew] at h
  repeat' split at h
  all_goals
    first
    | exact Except.noConfusion h
    | (injection h with h2
       injection h2 with hf hi he ho hu
       exact hf ▸ remove_debug_fs cfg _ _ other _ hdbg (by assumption))
    | exact handle_loop_debug_fs cfg conf other true hdbg _ _ _ _ _ _ _ _ h

theorem handle_rpmsave_debug_fs (cfg : Cfg) (fs : FS) (conf other : String)
    (inputs : List String) (exits : List ProcExit)
    (fs' : FS) (ins' : List String) (exs' : List ProcExit)
    (opt' : String) (out' : List String) (hdbg : cfg.debug = true)
    (h : handle_rpmsave cfg fs conf other inputs exits = .ok ⟨fs', ins', exs', opt', out'⟩) :
    fs' = fs := by
  simp only [handle_rpmsave] at h
  repeat' split at h
  all_goals
    first
    | exact Except.noConfusion h
    | (injection h with h2
       injection h2 with hf hi he ho hu
       exact hf ▸ remove_debug_fs cfg _ _ other _ hdbg (by assumption))
    | exact handle_loop_debug_fs cfg conf other false hdbg _ _ _ _ _ _ _ _ h

theorem cond_new_debug_fs (cfg : Cfg) (fs : FS) (conf other : String)
    (ins : List String) (exs : List ProcExit) (c : Prop) [Decidable c]
    (r : LoopRes) (hdbg : cfg.debug = true)
    (h : (if c then handle_rpmnew cfg fs conf other ins exs
          else .ok ⟨fs, ins, exs, "", []⟩) = .ok r) : r.fs = fs := by
  split at h
  · exact handle_rpmnew_debug_fs cfg fs conf other ins exs r.fs r.inputs r.exits
      r.opt r.out hdbg h
  · injection h with h2
    subst h2
    rfl

theorem cond_save_debug_fs (cfg : Cfg) (fs : FS) (conf other : String)
    (ins : List String) (exs : List ProcExit) (c : Prop) [Decidable c]
    (r : LoopRes) (hdbg : cfg.debug = true)
    (h : (if c then handle_rpmsave cfg fs conf other ins exs
          else .ok ⟨fs, ins, exs, "", []⟩) = .ok r) : r.fs = fs := by
  split at h
  · exact handle_rpmsave_debug_fs cfg fs conf other ins exs r.fs r.inputs r.exits
      r.opt r.out hdbg h
  · injection h with h2
    subst h2
    rfl

theorem handle_conf_file_debug_fs (cfg : Cfg) (fs : FS) (conf : String)
    (inputs : List String) (exits : List ProcExit) (r : RunRes)
    (hdbg : cfg.debug = true)
    (h : handle_conf_file cfg fs conf inputs exits = .ok r) : r.fs = fs := by
  simp only [handle_conf_file] at h
  repeat' split at h
  all_goals
    first
    | exact Except.noConfusion h
    | (injection h with h2
       subst h2
       have e1 := cond_new_debug_fs cfg _ conf (conf ++ ".rpmnew") _ _ _ _ hdbg
         (by assumption)
       have e2 := cond_save_debug_fs cfg _ conf (conf ++ ".rpmsave") _ _ _ _ hdbg
         (by assumption)
       have e3 := cond_save_debug_fs cfg _ conf (conf ++ ".rpmorig") _ _ _ _ hdbg
         (by assumption)
       exact e3.trans (e2.trans e1))

theorem runFiles_debug_fs (cfg : Cfg) (hdbg : cfg.debug = true) :
    ∀ (confs : List String) (fs : FS) (inputs : List String)
      (exits : List ProcExit) (r : RunRes),
      runFiles cfg confs fs inputs exits = .ok r → r.fs = fs := by
  intro confs
  induction confs with
  | nil =>
    intro fs inputs exits r h
    simp only [runFiles] at h
    injection h with h2
    subst h2
    rfl
  | cons conf rest ih =>
    intro fs inputs exits r h
    simp only [runFiles] at h
    repeat' split at h
    all_goals
      first
      | exact Except.noConfusion h
      | (injection h with h2
         subst h2
         have e1 := handle_conf_file_debug_fs cfg fs conf inputs exits _ hdbg
           (by assumption)
         have e2 := ih _ _ _ _ (by assumption)
         exact e2.trans e1)

theorem runFiles_cons_error (cfg : Cfg) (conf : String) (rest : List String)
    (fs : FS) (inputs : List String) (exits : List ProcExit) (e : Err)
    (h : handle_conf_file cfg fs conf inputs exits = .error e) :
    runFiles cfg (conf :: rest) fs inputs exits = .error e := by
  simp only [runFiles, h]

theorem removeAll_spec (cfg : Cfg) (hdbg : cfg.debug = false) :
    ∀ (ps : List String) (fs : FS), ps.Nodup →
      (∀ p ∈ ps, (FS.lookup fs p).isSome = true) →
      ∃ fs1 out, removeAll cfg fs ps = .ok (fs1, out) ∧
        (∀ p ∈ ps, FS.lookup fs1 p = none) ∧
        (∀ q, q ∉ ps → FS.lookup fs1 q = FS.lookup fs q) := by
  intro ps
  induction ps with
  | nil =>
    intro fs _ _
    exact ⟨fs, [], rfl, by simp, fun q _ => rfl⟩
  | cons p rest ih =>
    intro fs hnd hpres
    have hp : (FS.lookup fs p).isSome = true := hpres p (List.mem_cons_self p rest)
    obtain ⟨c, hc⟩ := Option.isSome_iff_exists.mp hp
    have hrm : remove cfg fs p = .ok (FS.erase fs p, []) := by
      simp [remove, hdbg, hc]
    have hd := List.nodup_cons.mp hnd
    have hpres2 : ∀ q ∈ rest, (FS.lookup (FS.erase fs p) q).isSome = true := by
      intro q hq
      rw [FS.lookup_erase]
      have hqp : ¬ q = p := fun hqp => hd.1 (hqp ▸ hq)
      simp only [hqp, if_false]
      exact hpres q (List.mem_cons_of_mem p hq)
    obtain ⟨fs1, out, hra, habs, hfr⟩ := ih (FS.erase fs p) hd.2 hpres2
    refine ⟨fs1, [] ++ out, ?_, ?_, ?_⟩
    · simp only [removeAll, hrm, hra]
    · intro q hq
      rcases List.mem_cons.mp hq with rfl | hq2
      · rw [hfr q hd.1]
        exact FS.lookup_erase_self fs q
      · exact habs q hq2
    · intro q hq
      have hqp : q ≠ p := fun hh => hq (hh ▸ List.mem_cons_self p rest)
      have hqr : q ∉ rest := fun hh => hq (List.mem_cons_of_mem p hh)
      rw [hfr q hqr, FS.lookup_erase_ne fs p q hqp]

theorem merge_debug_fs (cfg : Cfg) (fs fs1 : FS) (conf other : String)
    (ex : ProcExit) (out : List String) (hdbg : cfg.debug = true)
    (h : merge_conf_files cfg fs conf other ex = .ok (fs1, out)) : fs1 = fs := by
  rcases merge_ok_fs cfg fs fs1 conf other ex out h with hfs | hc
  · exact hfs
  · rw [hc.1] at hdbg
    exact Bool.noConfusion hdbg

theorem removeAll_debug_fs (cfg : Cfg) (hdbg : cfg.debug = true) :
    ∀ (ps : List String) (fs fs1 : FS) (out : List String),
      removeAll cfg fs ps = .ok (fs1, out) → fs1 = fs := by
  intro ps
  induction ps with
  | nil =>
    intro fs fs1 out h
    simp only [removeAll] at h
    injection h with h2
    injection h2 with ha hb
    exact ha.symm
  | cons p rest ih =>
    intro fs fs1 out h
    simp only [removeAll] at h
    repeat' split at h
    all_goals
      first
      | exact Except.noConfusion h
      | (injection h with h2
         injection h2 with ha hb
         exact ha ▸ ((ih _ _ _ (by assumption)).trans
           (remove_debug_fs cfg _ _ _ _ hdbg (by assumption))))

theorem cleanOrphanConfirm_debug_fs (cfg : Cfg) (fs fs1 : FS)
    (deletes inputs out : List String) (hdbg : cfg.debug = true)
    (h : cleanOrphanConfirm cfg fs deletes inputs = .ok (fs1, out)) : fs1 = fs := by
  simp only [cleanOrphanConfirm] at h
  repeat' split at h
  all_goals
    first
    | exact Except.noConfusion h
    | (injection h with h2
       injection h2 with ha hb
       first
       | exact ha.symm
       | exact ha ▸ removeAll_debug_fs cfg hdbg _ _ _ _ (by assumption))

theorem clean_orphan_debug_fs (cfg : Cfg) (owner : String → Option String)
    (names : List String) (fs fs1 : FS) (inputs out : List String)
    (hdbg : cfg.debug = true)
    (h : clean_orphan cfg owner names fs inputs = .ok (fs1, out)) : fs1 = fs := by
  simp only [clean_orphan] at h
  repeat' split at h
  all_goals
    first
    | exact Except.noConfusion h
    | (injection h with h2
       injection h2 with ha hb
       exact ha ▸ cleanOrphanConfirm_debug_fs cfg _ _ _ _ _ hdbg (by assumption))

theorem cleanOrphanConfirm_spec (cfg : Cfg) (fs : FS)
    (deletes inputs : List String) (hdbg : cfg.debug = false)
    (hne : deletes ≠ []) (hnd : deletes.Nodup)
    (hpres : ∀ d ∈ deletes, (FS.lookup fs d).isSome = true) :
    (∀ e, firstAnswer inputs = .error e →
      cleanOrphanConfirm cfg fs deletes inputs = .error e)
    ∧ (firstAnswer inputs = .ok "N" →
        cleanOrphanConfirm cfg fs deletes inputs =
          .ok (fs, "Orphaned .rpmnew and .rpmsave files:" :: deletes))
    ∧ (∀ a, firstAnswer inputs = .ok a → (a = "Y" ∨ a = "") →
        ∃ fs1 out, cleanOrphanConfirm cfg fs deletes inputs = .ok (fs1, out) ∧
          (∀ d ∈ deletes, FS.lookup fs1 d = none) ∧
          (∀ q, q ∉ deletes → FS.lookup fs1 q = FS.lookup fs q)) := by
  match deletes, hne with
  | d :: ds, _ =>
    refine ⟨?_, ?_, ?_⟩
    · intro e he
      simp [cleanOrphanConfirm, he]
    · intro ha
      simp [cleanOrphanConfirm, ha]
    · intro a ha haY
      obtain ⟨fs1, out, hra, habs, hfr⟩ :=
        removeAll_spec cfg hdbg (d :: ds) fs hnd hpres
      refine ⟨fs1, ("Orphaned .rpmnew and .rpmsave files:" :: (d :: ds)) ++ out,
        ?_, habs, hfr⟩
      rcases haY with h1 | h1 <;> subst h1 <;> simp [cleanOrphanConfirm, ha, hra]

/-! Claim theorems. -/

/-- C1: for every (base, variant) pair whose contents are byte-identical at
resolution time, resolution (in the real, non-dry-run mode) removes the
variant file, shows zero prompts (empty printed output, in particular no
prompt template), and leaves the base file untouched — in both the
new-variant and the saved-variant handler. -/
theorem c1_identical_auto_resolution (cfg : Cfg) (fs : FS) (conf other : String)
    (inputs : List String) (exits : List ProcExit) (c : Bytes)
    (hdbg : cfg.debug = false) (hne : conf ≠ other)
    (hconf : FS.lookup fs conf = some c) (hother : FS.lookup fs other = some c) :
    handle_rpmnew cfg fs conf other inputs exits =
      .ok ⟨FS.erase fs other, inputs, exits, "AUTO", []⟩
    ∧ handle_rpmsave cfg fs conf other inputs exits =
      .ok ⟨FS.erase fs other, inputs, exits, "AUTO", []⟩
    ∧ FS.lookup (FS.erase fs other) conf = some c
    ∧ FS.lookup (FS.erase fs other) other = none := by
  refine ⟨?_, ?_, ?_, ?_⟩
  · simp [handle_rpmnew, hconf, hother, remove, hdbg]
  · simp [handle_rpmsave, hconf, hother, remove, hdbg]
  · rw [FS.lookup_erase_ne fs other conf hne]
    exact hconf
  · exact FS.lookup_erase_self fs other

/-- Witness for C1 at a concrete identical pair. -/
theorem c1_witness :
    handle_rpmnew ⟨false, none, none⟩
      [("/etc/app.conf", [7]), ("/etc/app.conf.rpmnew", [7])]
      "/etc/app.conf" "/etc/app.conf.rpmnew" ["Y"] [] =
      .ok ⟨[("/etc/app.conf", [7])], ["Y"], [], "AUTO", []⟩ :=
  (c1_identical_auto_resolution ⟨false, none, none⟩
    [("/etc/app.conf", [7]), ("/etc/app.conf.rpmnew", [7])]
    "/etc/app.conf" "/etc/app.conf.rpmnew" ["Y"] [] [7]
    rfl (by decide) rfl rfl).1

/-- C2: in the resolution loop, empty input selects the template default:
at a new-variant prompt the default is `N` (the variant is removed, the
base untouched), at a saved-variant prompt the default is `Y` (the variant
is removed with no copy into the base). -/
theorem c2_empty_input_defaults (cfg : Cfg) (conf other : String) (fs : FS)
    (rest : List String) (exits : List ProcExit) (c o : Bytes)
    (hdbg : cfg.debug = false) (hne : conf ≠ other)
    (hconf : FS.lookup fs conf = some c) (hother : FS.lookup fs other = some o) :
    handle_loop cfg conf other true ("" :: rest) fs exits =
      .ok ⟨FS.erase fs other, rest, exits, "N", lsLines conf other ++ [promptRpmnew]⟩
    ∧ handle_loop cfg conf other false ("" :: rest) fs exits =
      .ok ⟨FS.erase fs other, rest, exits, "Y", lsLines conf other ++ [promptRpmsave]⟩
    ∧ FS.lookup (FS.erase fs other) conf = some c
    ∧ FS.lookup (FS.erase fs other) other = none := by
  have ht : toUpperStr "" = "" := by decide
  refine ⟨?_, ?_, ?_, ?_⟩
  · simp [handle_loop, ls_conf_file, hconf, hother, ht, defaultChoice, promptText,
      remove, hdbg]
  · simp [handle_loop, ls_conf_file, hconf, hother, ht, defaultChoice, promptText,
      remove, hdbg]
  · rw [FS.lookup_erase_ne fs other conf hne]
    exact hconf
  · exact FS.lookup_erase_self fs other

/-- Witness for C2 at a concrete differing pair with empty input. -/
theorem c2_witness :
    handle_loop ⟨false, none, none⟩ "/etc/app.conf" "/etc/app.conf.rpmnew" true
      [""] [("/etc/app.conf", [1]), ("/etc/app.conf.rpmnew", [2])] [] =
      .ok ⟨[("/etc/app.conf", [1])], [], [], "N",
        lsLines "/etc/app.conf" "/etc/app.conf.rpmnew" ++ [promptRpmnew]⟩ :=
  (c2_empty_input_defaults ⟨false, none, none⟩ "/etc/app.conf" "/etc/app.conf.rpmnew"
    [("/etc/app.conf", [1]), ("/etc/app.conf.rpmnew", [2])] [] [] [1] [2]
    rfl (by decide) rfl rfl).1

/-- C3: in non-dry-run mode, every resolution that reaches a terminal
outcome other than Skipped leaves the variant file absent from the
filesystem, so a later existence check on that exact variant path finds
nothing. -/
theorem c3_nonskip_variant_absent (cfg : Cfg) (fs : FS) (conf other : String)
    (inputs : List String) (exits : List ProcExit)
    (fs' : FS) (ins' : List String) (exs' : List ProcExit)
    (opt' : String) (out' : List String) (hdbg : cfg.debug = false)
    (h : handle_rpmnew cfg fs conf other inputs exits = .ok ⟨fs', ins', exs', opt', out'⟩
       ∨ handle_rpmsave cfg fs conf other inputs exits = .ok ⟨fs', ins', exs', opt', out'⟩)
    (hS : opt' ≠ "S") : FS.lookup fs' other = none := by
  rcases h with h | h
  · exact handle_rpmnew_nonskip cfg fs conf other inputs exits fs' ins' exs' opt' out'
      hdbg h hS
  · exact handle_rpmsave_nonskip cfg fs conf other inputs exits fs' ins' exs' opt' out'
      hdbg h hS

/-- Witness for C3: a concrete adopt-the-variant run. -/
theorem c3_witness :
    FS.lookup [("/etc/app.conf", [2])] "/etc/app.conf.rpmnew" = none :=
  c3_nonskip_variant_absent ⟨false, none, none⟩
    [("/etc/app.conf", [1]), ("/etc/app.conf.rpmnew", [2])]
    "/etc/app.conf" "/etc/app.conf.rpmnew" ["y"] []
    [("/etc/app.conf", [2])] [] [] "Y"
    (lsLines "/etc/app.conf" "/etc/app.conf.rpmnew" ++ [promptRpmnew])
    rfl (Or.inl rfl) (by decide)

/-- C9: every resolution that ends in the Skipped outcome (explicit `S` or
end of input) leaves the filesystem exactly as it was, and both the base
and the variant file existed (and hence still exist, byte-unchanged)
afterwards. -/
theorem c9_skip_frame (cfg : Cfg) (fs : FS) (conf other : String)
    (inputs : List String) (exits : List ProcExit)
    (fs' : FS) (ins' : List String) (exs' : List ProcExit)
    (opt' : String) (out' : List String)
    (h : handle_rpmnew cfg fs conf other inputs exits = .ok ⟨fs', ins', exs', opt', out'⟩
       ∨ handle_rpmsave cfg fs conf other inputs exits = .ok ⟨fs', ins', exs', opt', out'⟩)
    (hS : opt' = "S") :
    fs' = fs ∧ (FS.lookup fs conf).isSome = true ∧ (FS.lookup fs other).isSome = true := by
  rcases h with h | h
  · exact handle_rpmnew_skip cfg fs conf other inputs exits fs' ins' exs' opt' out' h hS
  · exact handle_rpmsave_skip cfg fs conf other inputs exits fs' ins' exs' opt' out' h hS

/-- Witness for C9: a concrete skipped run (explicit `S` after an unmapped
input). -/
theorem c9_witness :
    ([("/etc/w.conf", [1]), ("/etc/w.conf.rpmsave", [2])] : FS) =
      [("/etc/w.conf", [1]), ("/etc/w.conf.rpmsave", [2])]
    ∧ (FS.lookup [("/etc/w.conf", [1]), ("/etc/w.conf.rpmsave", [2])] "/etc/w.conf").isSome = true
    ∧ (FS.lookup [("/etc/w.conf", [1]), ("/etc/w.conf.rpmsave", [2])] "/etc/w.conf.rpmsave").isSome = true :=
  c9_skip_frame ⟨false, none, none⟩
    [("/etc/w.conf", [1]), ("/etc/w.conf.rpmsave", [2])]
    "/etc/w.conf" "/etc/w.conf.rpmsave" ["x", "s"] []
    [("/etc/w.conf", [1]), ("/etc/w.conf.rpmsave", [2])] [] [] "S"
    (lsLines "/etc/w.conf" "/etc/w.conf.rpmsave" ++ [promptRpmsave] ++
      (lsLines "/etc/w.conf" "/etc/w.conf.rpmsave" ++ [promptRpmsave]))
    (Or.inr rfl) rfl

/-- C4, counterexample: end of input is NOT treated as a non-fatal Skip at
every interactive prompt.  At the orphan-deletion confirmation prompt the
code has no `except EOFError`, so with one delete candidate and an
exhausted input stream the whole orphan scan dies with an uncaught
`EOFError` instead of skipping. -/
theorem c4_counterexample :
    clean_orphan ⟨false, none, none⟩ (fun _ => none)
      ["/etc/a.conf.rpmsave"] [("/etc/a.conf.rpmsave", [1])] [] =
      .error Err.eofError := rfl

/-- C4, amended: end of input is treated as an explicit non-error Skip at
the two resolution prompt templates, but at the orphan-deletion
confirmation prompt it raises an uncaught end-of-input error that
terminates the run. -/
theorem c4_amended_eof_behaviour :
    (∀ (cfg : Cfg) (fs : FS) (conf other : String) (exits : List ProcExit) (c o : Bytes),
      FS.lookup fs conf = some c → FS.lookup fs other = some o → c ≠ o →
      handle_rpmnew cfg fs conf other [] exits =
        .ok ⟨fs, [], exits, "S", lsLines conf other ++ [promptRpmnew]⟩)
    ∧ (∀ (cfg : Cfg) (fs : FS) (conf other : String) (exits : List ProcExit) (c o : Bytes),
      FS.lookup fs conf = some c → FS.lookup fs other = some o → c ≠ o →
      handle_rpmsave cfg fs conf other [] exits =
        .ok ⟨fs, [], exits, "S", lsLines conf other ++ [promptRpmsave]⟩)
    ∧ (∀ (cfg : Cfg) (fs : FS) (d : String) (ds : List String),
      cleanOrphanConfirm cfg fs (d :: ds) [] = .error Err.eofError) := by
  refine ⟨?_, ?_, ?_⟩
  · intro cfg fs conf other exits c o hconf hother hco
    simp [handle_rpmnew, hconf, hother, hco, handle_loop, ls_conf_file, promptText]
  · intro cfg fs conf other exits c o hconf hother hco
    simp [handle_rpmsave, hconf, hother, hco, handle_loop, ls_conf_file, promptText]
  · intro cfg fs d ds
    simp [cleanOrphanConfirm, firstAnswer]

/-- Witness for the amended C4: both behaviours at concrete inputs. -/
theorem c4_witness :
    handle_rpmnew ⟨false, none, none⟩
      [("/etc/e.conf", [1]), ("/etc/e.conf.rpmnew", [2])]
      "/etc/e.conf" "/etc/e.conf.rpmnew" [] [] =
      .ok ⟨[("/etc/e.conf", [1]), ("/etc/e.conf.rpmnew", [2])], [], [], "S",
        lsLines "/etc/e.conf" "/etc/e.conf.rpmnew" ++ [promptRpmnew]⟩
    ∧ cleanOrphanConfirm ⟨false, none, none⟩ [("/etc/o.rpmsave", [1])]
        ["/etc/o.rpmsave"] [] = .error Err.eofError :=
  ⟨c4_amended_eof_behaviour.1 ⟨false, none, none⟩
      [("/etc/e.conf", [1]), ("/etc/e.conf.rpmnew", [2])]
      "/etc/e.conf" "/etc/e.conf.rpmnew" [] [1] [2] rfl rfl (by decide),
   c4_amended_eof_behaviour.2.2 ⟨false, none, none⟩ [("/etc/o.rpmsave", [1])]
      "/etc/o.rpmsave" []⟩

/-- C5, counterexample: a per-file I/O failure is NOT contained to that
file.  With two config files, where the first has a variant but a missing
base (so `filecmp.cmp` raises `FileNotFoundError`) and the second is an
identical pair that processed alone would be auto-resolved, the whole run
aborts with the first error and the second file is never processed. -/
theorem c5_counterexample :
    runFiles ⟨false, none, none⟩ ["/etc/a.conf", "/etc/b.conf"]
      [("/etc/a.conf.rpmnew", [1]), ("/etc/b.conf", [2]), ("/etc/b.conf.rpmnew", [2])]
      [] [] = .error (Err.fileNotFound "/etc/a.conf")
    ∧ handle_conf_file ⟨false, none, none⟩
      [("/etc/a.conf.rpmnew", [1]), ("/etc/b.conf", [2]), ("/etc/b.conf.rpmnew", [2])]
      "/etc/b.conf" [] [] =
      .ok ⟨[("/etc/a.conf.rpmnew", [1]), ("/etc/b.conf", [2])], [], [], []⟩ :=
  ⟨rfl, rfl⟩

/-- C5, amended: a per-file I/O failure during the handling of one config
file propagates as an uncaught exception that aborts the entire run;
the remaining files are not processed. -/
theorem c5_amended_error_aborts_run (cfg : Cfg) (conf : String)
    (rest : List String) (fs : FS) (inputs : List String)
    (exits : List ProcExit) (e : Err)
    (h : handle_conf_file cfg fs conf inputs exits = .error e) :
    runFiles cfg (conf :: rest) fs inputs exits = .error e :=
  runFiles_cons_error cfg conf rest fs inputs exits e h

/-- Witness for the amended C5 at a concrete failing first file. -/
theorem c5_witness :
    runFiles ⟨false, none, none⟩ ["/etc/a.conf", "/etc/z.conf"]
      [("/etc/a.conf.rpmnew", [1])] [] [] =
      .error (Err.fileNotFound "/etc/a.conf") :=
  c5_amended_error_aborts_run ⟨false, none, none⟩ "/etc/a.conf" ["/etc/z.conf"]
    [("/etc/a.conf.rpmnew", [1])] [] [] (Err.fileNotFound "/etc/a.conf") rfl

/-- C6: in dry-run (debug) mode the engine never mutates the filesystem:
`_remove` and `_overwrite` only print the intended `rm`/`cp` command, the
merge dispatcher performs no engine-side deletion, and every larger engine
path (both resolution handlers, the whole per-package run, the batch
delete and the orphan scanner) returns the filesystem unchanged. -/
theorem c6_dry_run_frame (cfg : Cfg) (hdbg : cfg.debug = true) :
    (∀ (fs : FS) (p : String), remove cfg fs p = .ok (fs, ["rm " ++ p]))
    ∧ (∀ (fs : FS) (src dst : String), overwrite cfg fs src dst =
        .ok (fs, ["cp --no-dereference " ++ src ++ " " ++ dst]))
    ∧ (∀ (fs fs1 : FS) (conf other : String) (ex : ProcExit) (out : List String),
        merge_conf_files cfg fs conf other ex = .ok (fs1, out) → fs1 = fs)
    ∧ (∀ (fs : FS) (conf other : String) (inputs : List String)
        (exits : List ProcExit) (r : LoopRes),
        handle_rpmnew cfg fs conf other inputs exits = .ok r → r.fs = fs)
    ∧ (∀ (fs : FS) (conf other : String) (inputs : List String)
        (exits : List ProcExit) (r : LoopRes),
        handle_rpmsave cfg fs conf other inputs exits = .ok r → r.fs = fs)
    ∧ (∀ (confs : List String) (fs : FS) (inputs : List String)
        (exits : List ProcExit) (r : RunRes),
        runFiles cfg confs fs inputs exits = .ok r → r.fs = fs)
    ∧ (∀ (fs fs1 : FS) (ps : List String) (out : List String),
        removeAll cfg fs ps = .ok (fs1, out) → fs1 = fs)
    ∧ (∀ (owner : String → Option String) (names : List String) (fs fs1 : FS)
        (inputs out : List String),
        clean_orphan cfg owner names fs inputs = .ok (fs1, out) → fs1 = fs) := by
  refine ⟨?_, ?_, ?_, ?_, ?_, ?_, ?_, ?_⟩
  · intro fs p
    exact remove_debug cfg fs p hdbg
  · intro fs src dst
    exact overwrite_debug cfg fs src dst hdbg
  · intro fs fs1 conf other ex out h
    exact merge_debug_fs cfg fs fs1 conf other ex out hdbg h
  · intro fs conf other inputs exits r h
    exact handle_rpmnew_debug_fs cfg fs conf other inputs exits r.fs r.inputs
      r.exits r.opt r.out hdbg h
  · intro fs conf other inputs exits r h
    exact handle_rpmsave_debug_fs cfg fs conf other inputs exits r.fs r.inputs
      r.exits r.opt r.out hdbg h
  · intro confs fs inputs exits r h
    exact runFiles_debug_fs cfg hdbg confs fs inputs exits r h
  · intro fs fs1 ps out h
    exact removeAll_debug_fs cfg hdbg ps fs fs1 out h
  · intro owner names fs fs1 inputs out h
    exact clean_orphan_debug_fs cfg owner names fs fs1 inputs out hdbg h

/-- Witness for C6: concrete dry-run evaluations of the two primitives. -/
theorem c6_witness :
    remove ⟨true, none, none⟩ [("/etc/a.conf", [1])] "/etc/a.conf" =
      .ok ([("/etc/a.conf", [1])], ["rm /etc/a.conf"])
    ∧ overwrite ⟨true, none, none⟩ [("/etc/a.conf", [1])]
        "/etc/a.conf.rpmnew" "/etc/a.conf" =
      .ok ([("/etc/a.conf", [1])],
        ["cp --no-dereference /etc/a.conf.rpmnew /etc/a.conf"]) :=
  ⟨(c6_dry_run_frame ⟨true, none, none⟩ rfl).1 [("/etc/a.conf", [1])] "/etc/a.conf",
   (c6_dry_run_frame ⟨true, none, none⟩ rfl).2.1 [("/etc/a.conf", [1])]
     "/etc/a.conf.rpmnew" "/etc/a.conf"⟩

/-- C7: the orphan scanner deletes its delete candidates only after the
single batch confirmation: an unanswered prompt propagates the error and
deletes nothing, answer `N` leaves the filesystem unchanged (every
candidate still present), and answer `Y` or empty input (the default)
deletes exactly the candidates and nothing else. -/
theorem c7_orphan_batch_confirmation (cfg : Cfg) (owner : String → Option String)
    (names : List String) (fs : FS) (inputs : List String)
    (hdbg : cfg.debug = false)
    (hne : (cleanOrphanScan owner names).2 ≠ [])
    (hnd : (cleanOrphanScan owner names).2.Nodup)
    (hpres : ∀ d ∈ (cleanOrphanScan owner names).2, (FS.lookup fs d).isSome = true) :
    (∀ e, firstAnswer inputs = .error e →
      clean_orphan cfg owner names fs inputs = .error e)
    ∧ (firstAnswer inputs = .ok "N" →
        ∃ out, clean_orphan cfg owner names fs inputs = .ok (fs, out))
    ∧ (∀ a, firstAnswer inputs = .ok a → (a = "Y" ∨ a = "") →
        ∃ fs1 out, clean_orphan cfg owner names fs inputs = .ok (fs1, out) ∧
          (∀ d ∈ (cleanOrphanScan owner names).2, FS.lookup fs1 d = none) ∧
          (∀ q, q ∉ (cleanOrphanScan owner names).2 →
            FS.lookup fs1 q = FS.lookup fs q)) := by
  have hspec := cleanOrphanConfirm_spec cfg fs (cleanOrphanScan owner names).2
    inputs hdbg hne hnd hpres
  refine ⟨?_, ?_, ?_⟩
  · intro e he
    have h1 := hspec.1 e he
    simp [clean_orphan, h1]
  · intro ha
    have h2 := hspec.2.1 ha
    exact ⟨_, by simp only [clean_orphan, h2]; rfl⟩
  · intro a ha hay
    obtain ⟨fs1, out, hcc, habs, hfr⟩ := hspec.2.2 a ha hay
    exact ⟨fs1, _, by simp only [clean_orphan, hcc]; rfl, habs, hfr⟩

/-- Witness for C7: one orphan, unowned, confirmed by empty input. -/
theorem c7_witness :
    ∃ fs1 out, clean_orphan ⟨false, none, none⟩ (fun _ => none)
      ["/etc/a.conf.rpmsave"] [("/etc/a.conf.rpmsave", [1])] [""] = .ok (fs1, out) ∧
      (∀ d ∈ (cleanOrphanScan (fun _ => none) ["/etc/a.conf.rpmsave"]).2,
        FS.lookup fs1 d = none) ∧
      (∀ q, q ∉ (cleanOrphanScan (fun _ => none) ["/etc/a.conf.rpmsave"]).2 →
        FS.lookup fs1 q = FS.lookup [("/etc/a.conf.rpmsave", [1])] q) :=
  (c7_orphan_batch_confirmation ⟨false, none, none⟩ (fun _ => none)
    ["/etc/a.conf.rpmsave"] [("/etc/a.conf.rpmsave", [1])] [""]
    rfl (by decide) (by decide) (by decide)).2.2 "" rfl (Or.inr rfl)

/-- C8: orphan classification is a total partition.  For every walked file
the scanner considers (tagged `.rpmnew`/`.rpmsave`), given that the
package database never reports an empty package name, the file lands in
exactly one of the needs-merge list (ownership lookup succeeded) or the
delete-candidate list (lookup failed) — never both, never neither. -/
theorem c8_orphan_classification_partition (owner : String → Option String)
    (name : String) (hname : ∀ p s, owner p = some s → s ≠ "")
    (hcons : orphanConsiders name = true) :
    ((cleanOrphanScan owner [name]).1.length = 1 ∧ (cleanOrphanScan owner [name]).2 = [])
    ∨ ((cleanOrphanScan owner [name]).1 = [] ∧
        (cleanOrphanScan owner [name]).2 = [name]) := by
  cases ho : owner (splitextRoot name) with
  | none =>
    right
    simp [cleanOrphanScan, hcons, clean_orphan_file, ho, pythonTruthy]
  | some pkg =>
    left
    have hpk := hname _ _ ho
    simp [cleanOrphanScan, hcons, clean_orphan_file, ho, pythonTruthy, hpk]

/-- Witness for C8: an owned saved-variant file is classified needs-merge
only. -/
theorem c8_witness :
    ((cleanOrphanScan (fun _ => some "pkg") ["/etc/b.conf.rpmsave"]).1.length = 1 ∧
      (cleanOrphanScan (fun _ => some "pkg") ["/etc/b.conf.rpmsave"]).2 = [])
    ∨ ((cleanOrphanScan (fun _ => some "pkg") ["/etc/b.conf.rpmsave"]).1 = [] ∧
      (cleanOrphanScan (fun _ => some "pkg") ["/etc/b.conf.rpmsave"]).2 =
        ["/etc/b.conf.rpmsave"]) :=
  c8_orphan_classification_partition (fun _ => some "pkg") "/etc/b.conf.rpmsave"
    (fun p s h => by cases h; decide) (by decide)

/-- C10: the orphan scanner only considers files whose final dot-extension
is exactly `.rpmnew` or `.rpmsave`: a file name ending in `.rpmorig` is
never picked up by the scan filter, while the interactive per-package path
does process an existing `.rpmorig` file (through the saved-variant
handler). -/
theorem c10_scan_ignores_rpmorig :
    (∀ chars : List Char,
      orphanConsiders (String.mk (chars ++ ['.', 'r', 'p', 'm', 'o', 'r', 'i', 'g'])) = false)
    ∧ (∀ (cfg : Cfg) (fs : FS) (conf : String) (inputs : List String)
        (exits : List ProcExit),
        FS.lookup fs (conf ++ ".rpmnew") = none →
        FS.lookup fs (conf ++ ".rpmsave") = none →
        (FS.lookup fs (conf ++ ".rpmorig")).isSome = true →
        handle_conf_file cfg fs conf inputs exits =
          match handle_rpmsave cfg fs conf (conf ++ ".rpmorig") inputs exits with
          | .error e => .error e
          | .ok r => .ok ⟨r.fs, r.inputs, r.exits, r.out⟩) := by
  constructor
  · intro chars
    have hb : basenameChars
        (String.mk (chars ++ ['.', 'r', 'p', 'm', 'o', 'r', 'i', 'g'])).toList
        = ('g' :: 'i' :: 'r' :: 'o' :: 'm' :: 'p' :: 'r' :: '.' ::
            List.takeWhile (fun c => c != '/') chars.reverse).reverse := by
      show basenameChars (chars ++ ['.', 'r', 'p', 'm', 'o', 'r', 'i', 'g']) = _
      unfold basenameChars
      rw [List.reverse_append]
      rfl
    have hext : extOfBasename (basenameChars
        (String.mk (chars ++ ['.', 'r', 'p', 'm', 'o', 'r', 'i', 'g'])).toList)
        = (if (List.takeWhile (fun c => c != '/') chars.reverse).any
              (fun c => c != '.') then
            ['.', 'r', 'p', 'm', 'o', 'r', 'i', 'g'] else []) := by
      rw [hb]
      unfold extOfBasename
      rw [List.reverse_reverse]
      rfl
    unfold orphanConsiders splitextExt
    rw [hext]
    split
    · decide
    · decide
  · intro cfg fs conf inputs exits h1 h2 h3
    cases hr : handle_rpmsave cfg fs conf (conf ++ ".rpmorig") inputs exits with
    | error e => simp [handle_conf_file, h1, h2, h3, hr]
    | ok r => simp [handle_conf_file, h1, h2, h3, hr]

/-- Witness for C10: a concrete `.rpmorig` file, ignored by the scan filter
but processed by the per-package path. -/
theorem c10_witness :
    orphanConsiders (String.mk (("/etc/x".toList) ++
      ['.', 'r', 'p', 'm', 'o', 'r', 'i', 'g'])) = false
    ∧ handle_conf_file ⟨false, none, none⟩
        [("/etc/x", [1]), ("/etc/x.rpmorig", [2])] "/etc/x" [""] [] =
      match handle_rpmsave ⟨false, none, none⟩
          [("/etc/x", [1]), ("/etc/x.rpmorig", [2])] "/etc/x" "/etc/x.rpmorig"
          [""] [] with
      | .error e => .error e
      | .ok r => .ok ⟨r.fs, r.inputs, r.exits, r.out⟩ :=
  ⟨c10_scan_ignores_rpmorig.1 ("/etc/x".toList),
   c10_scan_ignores_rpmorig.2 ⟨false, none, none⟩
     [("/etc/x", [1]), ("/etc/x.rpmorig", [2])] "/etc/x" [""] [] rfl rfl rfl⟩

end Rpmconf
